import Mathlib

/-!
Shallow embedding of the Shift Tracker core (src/app.js).

Instants are modelled as natural numbers (milliseconds since epoch); the
ISO-8601 strings the program stores are order- and equality-isomorphic to
those. A JS timestamp field that may be `null` becomes `Option Nat`.
Counter fields are `Int` (JS numbers; the defensive `typeof`/`isNaN`
checks of `safeCounter` collapse to the sign check in this typed model).
Array index arguments are `Int`, and the out-of-range access semantics of
JS arrays (`patrols[i]` yields `undefined`, and reading a property of
`undefined` throws) is modelled with `Option` lookup and `Except`.
-/

structure Note where
  id : Nat
  timestamp : Nat
  text : String
  deriving DecidableEq

structure Patrol where
  index : Nat
  startTime : Option Nat
  endTime : Option Nat
  deriving DecidableEq

structure Shift where
  id : Nat
  date : Nat
  startTime : Nat
  endTime : Option Nat
  engagements : Int
  streetDrinkers : Int
  asbIncidents : Int
  notes : List Note
  notesLocked : Bool
  patrols : List Patrol
  deriving DecidableEq

structure State where
  currentShift : Option Shift
  lastCompletedShift : Option Shift
  deriving DecidableEq

def initState : State := { currentShift := none, lastCompletedShift := none }

/-- `safeCounter` from app.js: a stored counter is used only when it is a
non-negative number, else read as 0. -/
def safeCounter (v : Int) : Int := if 0 ≤ v then v else 0

/-- `getPatrolDurationMs` from app.js: end minus start when both instants
are present, else 0. -/
def getPatrolDurationMs (p : Patrol) : Int :=
  match p.startTime, p.endTime with
  | some st, some en => (en : Int) - (st : Int)
  | _, _ => 0

/-- A patrol is active when its `startTime` is set and its `endTime` absent
(the predicate of the `find` calls in `endShift` and `startPatrol`). -/
def activeB (p : Patrol) : Bool := p.startTime.isSome && p.endTime.isNone

/-- JS array subscripting: `patrols[i]` is `undefined` for a negative or
out-of-range index. -/
def jsGet (l : List Patrol) (i : Int) : Option Patrol :=
  if 0 ≤ i then l.get? i.toNat else none

-- ---------- Actions: shifts and patrols ----------

/-- The shift object built by `startShift` in app.js: fresh id/date/start
from `now`, no end, zeroed counters, empty locked notes, five pending
patrols with indices 1..5. (`date` is the calendar-day part of the
instant, modelled as the day number.) -/
def freshShift (now : Nat) : Shift :=
  { id := now
    date := now / 86400000
    startTime := now
    endTime := none
    engagements := 0
    streetDrinkers := 0
    asbIncidents := 0
    notes := []
    notesLocked := true
    patrols := [⟨1, none, none⟩, ⟨2, none, none⟩, ⟨3, none, none⟩,
                ⟨4, none, none⟩, ⟨5, none, none⟩] }

/-- `startShift` from app.js: no-op while a current shift exists with no
`endTime`; otherwise installs a fresh shift. -/
def startShift (now : Nat) (s : State) : State :=
  match s.currentShift with
  | some sh => if sh.endTime = none then s
               else { s with currentShift := some (freshShift now) }
  | none => { s with currentShift := some (freshShift now) }

/-- The in-place mutation done by `endShift`'s
`patrols.find((p) => p.startTime && !p.endTime)` followed by
`activePatrol.endTime = now`: the first active patrol gets its `endTime`
set; everything else is untouched. -/
def closeFirstActive (now : Nat) : List Patrol → List Patrol
  | [] => []
  | p :: ps =>
    if activeB p then ({ p with endTime := some now }) :: ps
    else p :: closeFirstActive now ps

/-- `endShift` from app.js: no-op without an un-ended current shift;
otherwise auto-closes the active patrol, stamps the shift's `endTime`,
moves it into `lastCompletedShift` and clears `currentShift`. -/
def endShift (now : Nat) (s : State) : State :=
  match s.currentShift with
  | none => s
  | some sh =>
    if sh.endTime.isSome then s
    else
      let sh2 : Shift :=
        { sh with patrols := closeFirstActive now sh.patrols, endTime := some now }
      { currentShift := none, lastCompletedShift := some sh2 }

/-- The tail of `startPatrol` in app.js, from `!thisPatrol.startTime`
onward: reading `startTime` of an out-of-range (`undefined`) element
throws; a pending patrol is started, any other is left alone. -/
def startPatrolGo (now : Nat) (index : Int) (s : State) (sh : Shift)
    (thisPatrol : Option Patrol) : Except Unit State :=
  match thisPatrol with
  | none => Except.error ()
  | some tp =>
    if tp.startTime.isNone && tp.endTime.isNone then
      let tp2 : Patrol := { tp with startTime := some now }
      let sh2 : Shift := { sh with patrols := sh.patrols.set index.toNat tp2 }
      Except.ok { s with currentShift := some sh2 }
    else Except.ok s

/-- `startPatrol(index)` from app.js, with JS exception semantics made
explicit: `Except.error ()` is a thrown `TypeError` (property read on
`undefined`). Guards, in source order: un-ended current shift; no patrol
currently active; for `index > 0` the previous patrol (whose `endTime`
read throws when `patrols[index-1]` is `undefined`) must have an
`endTime`; finally the target patrol must be pending. -/
def startPatrolE (now : Nat) (index : Int) (s : State) : Except Unit State :=
  match s.currentShift with
  | none => Except.ok s
  | some sh =>
    if sh.endTime.isSome then Except.ok s
    else if (sh.patrols.find? activeB).isSome then Except.ok s
    else if 0 < index then
      match jsGet sh.patrols (index - 1) with
      | none => Except.error ()
      | some prev =>
        if prev.endTime.isNone then Except.ok s
        else startPatrolGo now index s sh (jsGet sh.patrols index)
    else startPatrolGo now index s sh (jsGet sh.patrols index)

/-- `endPatrol(index)` from app.js: no-op unless an un-ended current shift
exists and the target patrol is present and active (its presence is
guarded, so no exception is possible here). -/
def endPatrol (now : Nat) (index : Int) (s : State) : State :=
  match s.currentShift with
  | none => s
  | some sh =>
    if sh.endTime.isSome then s
    else
      match jsGet sh.patrols index with
      | none => s
      | some p =>
        if p.startTime.isSome && p.endTime.isNone then
          let p2 : Patrol := { p with endTime := some now }
          let sh2 : Shift := { sh with patrols := sh.patrols.set index.toNat p2 }
          { s with currentShift := some sh2 }
        else s

-- ---------- Actions: counters ----------

/-- `getCurrentEngagements` from app.js. -/
def getCurrentEngagements (s : State) : Int :=
  match s.currentShift with
  | none => 0
  | some sh => safeCounter sh.engagements

/-- `setCurrentEngagements` from app.js: inert without an un-ended current
shift, else stores `max 0 value`. -/
def setCurrentEngagements (v : Int) (s : State) : State :=
  match s.currentShift with
  | none => s
  | some sh =>
    if sh.endTime.isSome then s
    else { s with currentShift := some ({ sh with engagements := max 0 v }) }

def getCurrentStreetDrinkers (s : State) : Int :=
  match s.currentShift with
  | none => 0
  | some sh => safeCounter sh.streetDrinkers

def setCurrentStreetDrinkers (v : Int) (s : State) : State :=
  match s.currentShift with
  | none => s
  | some sh =>
    if sh.endTime.isSome then s
    else { s with currentShift := some ({ sh with streetDrinkers := max 0 v }) }

def getCurrentAsbIncidents (s : State) : Int :=
  match s.currentShift with
  | none => 0
  | some sh => safeCounter sh.asbIncidents

def setCurrentAsbIncidents (v : Int) (s : State) : State :=
  match s.currentShift with
  | none => s
  | some sh =>
    if sh.endTime.isSome then s
    else { s with currentShift := some ({ sh with asbIncidents := max 0 v }) }

def incrementEngagements (s : State) : State :=
  setCurrentEngagements (getCurrentEngagements s + 1) s

def decrementEngagements (s : State) : State :=
  if getCurrentEngagements s ≤ 0 then s
  else setCurrentEngagements (getCurrentEngagements s - 1) s

def incrementStreetDrinkers (s : State) : State :=
  setCurrentStreetDrinkers (getCurrentStreetDrinkers s + 1) s

def decrementStreetDrinkers (s : State) : State :=
  if getCurrentStreetDrinkers s ≤ 0 then s
  else setCurrentStreetDrinkers (getCurrentStreetDrinkers s - 1) s

def incrementAsbIncidents (s : State) : State :=
  setCurrentAsbIncidents (getCurrentAsbIncidents s + 1) s

def decrementAsbIncidents (s : State) : State :=
  if getCurrentAsbIncidents s ≤ 0 then s
  else setCurrentAsbIncidents (getCurrentAsbIncidents s - 1) s

-- ---------- Actions: notes ----------

/-- `toggleNotesLock` from app.js. -/
def toggleNotesLock (s : State) : State :=
  match s.currentShift with
  | none => s
  | some sh => { s with currentShift := some ({ sh with notesLocked := !sh.notesLocked }) }

/-- `addNote` from app.js: no-op without a current shift or when the text
trims to empty; otherwise appends a fresh note. (`ensureNotesStructure`
is the identity on this typed model.) -/
def addNote (now noteId : Nat) (text : String) (s : State) : State :=
  match s.currentShift with
  | none => s
  | some sh =>
    if text.trim.isEmpty then s
    else
      let sh2 : Shift := { sh with notes := sh.notes ++ [⟨noteId, now, text.trim⟩] }
      { s with currentShift := some sh2 }

/-- In-place mutation of the first note with a matching id, as
`notes.find((n) => n.id === id)` followed by `note.text = newText`. -/
def setFirstNoteText (noteId : Nat) (newText : String) : List Note → List Note
  | [] => []
  | n :: ns =>
    if n.id = noteId then ({ n with text := newText }) :: ns
    else n :: setFirstNoteText noteId newText ns

/-- `updateNoteText` from app.js. -/
def updateNoteText (noteId : Nat) (newText : String) (s : State) : State :=
  match s.currentShift with
  | none => s
  | some sh =>
    match sh.notes.find? (fun n => n.id = noteId) with
    | none => s
    | some _ =>
      let sh2 : Shift := { sh with notes := setFirstNoteText noteId newText sh.notes }
      { s with currentShift := some sh2 }

/-- `splice` removal of the first note with a matching id (`findIndex`
then `splice(index, 1)`). -/
def removeFirstNote (noteId : Nat) : List Note → List Note
  | [] => []
  | n :: ns => if n.id = noteId then ns else n :: removeFirstNote noteId ns

/-- `deleteNote` from app.js. -/
def deleteNote (noteId : Nat) (s : State) : State :=
  match s.currentShift with
  | none => s
  | some sh =>
    match sh.notes.find? (fun n => n.id = noteId) with
    | none => s
    | some _ =>
      let sh2 : Shift := { sh with notes := removeFirstNote noteId sh.notes }
      { s with currentShift := some sh2 }

-- ---------- Operation algebra ----------

/-- The externally triggerable mutations of the core (the handlers wired to
the UI in app.js). A thrown JS exception leaves the in-memory state as it
was, since `startPatrol` throws before any mutation. -/
inductive Op where
  | startShift (now : Nat)
  | endShift (now : Nat)
  | startPatrol (now : Nat) (index : Int)
  | endPatrol (now : Nat) (index : Int)
  | incrementEngagements
  | decrementEngagements
  | incrementStreetDrinkers
  | decrementStreetDrinkers
  | incrementAsbIncidents
  | decrementAsbIncidents
  | toggleNotesLock
  | addNote (now noteId : Nat) (text : String)
  | updateNoteText (noteId : Nat) (text : String)
  | deleteNote (noteId : Nat)

def step : Op → State → State
  | Op.startShift now, s => startShift now s
  | Op.endShift now, s => endShift now s
  | Op.startPatrol now i, s =>
    match startPatrolE now i s with
    | Except.ok s2 => s2
    | Except.error _ => s
  | Op.endPatrol now i, s => endPatrol now i s
  | Op.incrementEngagements, s => incrementEngagements s
  | Op.decrementEngagements, s => decrementEngagements s
  | Op.incrementStreetDrinkers, s => incrementStreetDrinkers s
  | Op.decrementStreetDrinkers, s => decrementStreetDrinkers s
  | Op.incrementAsbIncidents, s => incrementAsbIncidents s
  | Op.decrementAsbIncidents, s => decrementAsbIncidents s
  | Op.toggleNotesLock, s => toggleNotesLock s
  | Op.addNote now noteId text, s => addNote now noteId text s
  | Op.updateNoteText noteId text, s => updateNoteText noteId text s
  | Op.deleteNote noteId, s => deleteNote noteId s

def runFrom (s : State) : List Op → State
  | [] => s
  | op :: ops => runFrom (step op s) ops

def run (ops : List Op) : State := runFrom initState ops

/-- The states the program can be in after any sequence of operations from
the initial empty state. -/
inductive Reachable : State → Prop
  | init : Reachable initState
  | next (op : Op) {s : State} : Reachable s → Reachable (step op s)

-- ---------- The reachable-state invariant ----------

/-- Well-formedness of an un-ended current shift: not yet ended, at most
one active patrol, exactly five patrols, non-negative stored counters. -/
def InvShift (sh : Shift) : Prop :=
  sh.endTime = none ∧ List.countP activeB sh.patrols ≤ 1 ∧
  sh.patrols.length = 5 ∧
  0 ≤ sh.engagements ∧ 0 ≤ sh.streetDrinkers ∧ 0 ≤ sh.asbIncidents

/-- Well-formedness of an archived shift: non-negative stored counters. -/
def InvDone (sh : Shift) : Prop :=
  0 ≤ sh.engagements ∧ 0 ≤ sh.streetDrinkers ∧ 0 ≤ sh.asbIncidents

def StateInv (s : State) : Prop :=
  (∀ sh, s.currentShift = some sh → InvShift sh) ∧
  (∀ sh, s.lastCompletedShift = some sh → InvDone sh)

/-- The state produced by the success branch of `startPatrol`: the target
patrol's `startTime` stamped, everything else untouched. -/
def startPatrolResult (now : Nat) (i : Int) (s : State) (sh : Shift)
    (tp : Patrol) : State :=
  let tp2 : Patrol := { tp with startTime := some now }
  let sh2 : Shift := { sh with patrols := sh.patrols.set i.toNat tp2 }
  { s with currentShift := some sh2 }

-- ---------- Persistence (C7) ----------

/-- The serialized shape of a shift. An `Option` field models "present in
the parsed blob with a value of the JS type `loadState` tests for, or
not": `loadState` checks the three counters with `typeof n === "number"`
and `ensureNotesStructure` checks `Array.isArray(notes)` and
`typeof notesLocked === "boolean"`, defaulting each when absent or of the
wrong type. The serialization transport itself (`JSON.stringify` and
`localStorage`) is the opaque key-value store of the spec. -/
structure StoredShift where
  id : Nat
  date : Nat
  startTime : Nat
  endTime : Option Nat
  engagements : Option Int
  streetDrinkers : Option Int
  asbIncidents : Option Int
  notes : Option (List Note)
  notesLocked : Option Bool
  patrols : List Patrol
  deriving DecidableEq

structure StoredState where
  currentShift : Option StoredShift
  lastCompletedShift : Option StoredShift
  deriving DecidableEq

/-- `JSON.stringify` of a well-typed in-memory shift: every field is
present with its value. -/
def encodeShift (sh : Shift) : StoredShift :=
  ⟨sh.id, sh.date, sh.startTime, sh.endTime, some sh.engagements,
   some sh.streetDrinkers, some sh.asbIncidents, some sh.notes,
   some sh.notesLocked, sh.patrols⟩

/-- `saveState` from app.js: the whole top-level state is serialized and
written under the fixed key (the store holds `none` before any save). -/
def saveState (s : State) : Option StoredState :=
  some ⟨s.currentShift.map encodeShift, s.lastCompletedShift.map encodeShift⟩

/-- The defensive normalization `loadState` applies to each shift-shaped
value: counters coerced to 0 unless a number, notes to `[]` unless an
array, `notesLocked` to `true` unless a boolean. -/
def normalizeShift (st : StoredShift) : Shift :=
  { id := st.id
    date := st.date
    startTime := st.startTime
    endTime := st.endTime
    engagements := st.engagements.getD 0
    streetDrinkers := st.streetDrinkers.getD 0
    asbIncidents := st.asbIncidents.getD 0
    notes := st.notes.getD []
    notesLocked := st.notesLocked.getD true
    patrols := st.patrols }

/-- `loadState` from app.js: an absent blob leaves the in-memory state as
it was; a present one replaces both slots (`parsed.currentShift || null`),
normalizing each shift defensively. -/
def loadState (blob : Option StoredState) (s : State) : State :=
  match blob with
  | none => s
  | some parsed =>
    { currentShift := parsed.currentShift.map normalizeShift
      lastCompletedShift := parsed.lastCompletedShift.map normalizeShift }

-- ---------- Summary aggregation (C8) ----------

/-- The `totalPatrolMs` accumulation of `renderSummary`: the sum of
`getPatrolDurationMs` over all five patrols. -/
def totalPatrolMs (sh : Shift) : Int :=
  (sh.patrols.map getPatrolDurationMs).sum

/-- The patrols that get an itemized row in `renderSummary`
(`if (!p.startTime && !p.endTime) return;` skips the untouched ones). -/
def summaryListedPatrols (sh : Shift) : List Patrol :=
  sh.patrols.filter (fun p => !(p.startTime.isNone && p.endTime.isNone))

/-- Modelled from the spec (section 4.1): `durationOf(start, end)` returns
`end - start` in milliseconds if both present, else `0`. Stated for
comparison with `getPatrolDurationMs`, the code's version. -/
def durationOfSpec (start finish : Option Nat) : Int :=
  match start, finish with
  | some a, some b => (b : Int) - (a : Int)
  | _, _ => 0

/-- "The shift has ended": no current shift (it was archived), or the
current shift carries an `endTime`. -/
def shiftEnded (s : State) : Prop :=
  s.currentShift = none ∨ ∃ sh, s.currentShift = some sh ∧ sh.endTime.isSome = true

-- ---------- Concrete runs used by the witnesses ----------

def opsA : List Op := [Op.startShift 10, Op.startPatrol 11 0]

/-- The current shift after `opsA`: started at 10, patrol 1 active. -/
def shA : Shift :=
  { id := 10, date := 0, startTime := 10, endTime := none, engagements := 0,
    streetDrinkers := 0, asbIncidents := 0, notes := [], notesLocked := true,
    patrols := [⟨1, some 11, none⟩, ⟨2, none, none⟩, ⟨3, none, none⟩,
                ⟨4, none, none⟩, ⟨5, none, none⟩] }

def opsB : List Op := [Op.startShift 10, Op.startPatrol 11 0, Op.endPatrol 12 0]

/-- The current shift after `opsB`: patrol 1 completed. -/
def shB : Shift :=
  { id := 10, date := 0, startTime := 10, endTime := none, engagements := 0,
    streetDrinkers := 0, asbIncidents := 0, notes := [], notesLocked := true,
    patrols := [⟨1, some 11, some 12⟩, ⟨2, none, none⟩, ⟨3, none, none⟩,
                ⟨4, none, none⟩, ⟨5, none, none⟩] }

/-- The state `startPatrol(1)` at time 13 produces from `run opsB`:
patrol 2 becomes active. -/
def sB2 : State :=
  { currentShift :=
      some { shB with patrols := [⟨1, some 11, some 12⟩, ⟨2, some 13, none⟩,
        ⟨3, none, none⟩, ⟨4, none, none⟩, ⟨5, none, none⟩] }
    lastCompletedShift := none }

theorem reachable_runFrom (ops : List Op) (s : State) (h : Reachable s) :
    Reachable (runFrom s ops) := by
  induction ops generalizing s with
  | nil => exact h
  | cons op ops ih => exact ih (step op s) (Reachable.next op h)

theorem reachable_run (ops : List Op) : Reachable (run ops) :=
  reachable_runFrom ops initState Reachable.init

-- ---------- List lemmas ----------

theorem countP_set_le (q : Patrol → Bool) (l : List Patrol) (n : Nat) (a : Patrol) :
    List.countP q (l.set n a) ≤ List.countP q l + (if q a then 1 else 0) := by
  induction l generalizing n with
  | nil => simp [List.set]
  | cons h t ih =>
    cases n with
    | zero =>
      simp only [List.set, List.countP_cons]
      split <;> split <;> omega
    | succ m =>
      simp only [List.set, List.countP_cons]
      have := ih m
      split <;> omega

theorem length_closeFirstActive (now : Nat) (l : List Patrol) :
    (closeFirstActive now l).length = l.length := by
  induction l with
  | nil => rfl
  | cons p ps ih =>
    simp only [closeFirstActive]
    split <;> simp [ih]

theorem get_closeFirstActive_inactive (now : Nat) (l : List Patrol) (j : Nat)
    (p : Patrol) (hg : l.get? j = some p) (hp : activeB p = false) :
    (closeFirstActive now l).get? j = some p := by
  induction l generalizing j with
  | nil => simp at hg
  | cons h t ih =>
    simp only [closeFirstActive]
    split
    next hact =>
      cases j with
      | zero =>
        simp only [List.get?] at hg
        cases hg
        rw [hact] at hp
        simp at hp
      | succ m => simpa using hg
    next hact =>
      cases j with
      | zero => simpa using hg
      | succ m =>
        simp only [List.get?] at hg ⊢
        exact ih m hg

theorem get_closeFirstActive_active (now : Nat) (l : List Patrol) (j : Nat)
    (p : Patrol) (hone : List.countP activeB l ≤ 1)
    (hg : l.get? j = some p) (hp : activeB p = true) :
    (closeFirstActive now l).get? j = some { p with endTime := some now } := by
  induction l generalizing j with
  | nil => simp at hg
  | cons h t ih =>
    simp only [closeFirstActive]
    split
    next hact =>
      have ht : List.countP activeB t = 0 := by
        rw [List.countP_cons] at hone
        simp [hact] at hone
        exact List.countP_eq_zero.mpr (fun a ha => by simp [hone a ha])
      cases j with
      | zero =>
        simp only [List.get?] at hg
        cases hg
        rfl
      | succ m =>
        simp only [List.get?] at hg
        have hpf : activeB p = false := by
          have hmem : p ∈ t := List.get?_mem hg
          have := List.countP_eq_zero.mp ht p hmem
          simpa using this
        rw [hp] at hpf
        simp at hpf
    next hact =>
      cases j with
      | zero =>
        simp only [List.get?] at hg
        cases hg
        rw [hp] at hact
        simp at hact
      | succ m =>
        simp only [List.get?] at hg ⊢
        have hone2 : List.countP activeB t ≤ 1 := by
          rw [List.countP_cons] at hone
          omega
        exact ih m hone2 hg

theorem invShift_fresh (now : Nat) : InvShift (freshShift now) := by
  refine ⟨rfl, ?_, rfl, le_refl 0, le_refl 0, le_refl 0⟩
  show List.countP activeB
    [⟨1, none, none⟩, ⟨2, none, none⟩, ⟨3, none, none⟩,
     ⟨4, none, none⟩, ⟨5, none, none⟩] ≤ 1
  decide

theorem inv_set_current (s : State) (sh2 : Shift) (h : StateInv s)
    (h2 : InvShift sh2) : StateInv { s with currentShift := some sh2 } := by
  constructor
  · intro sh hc
    simp only [Option.some.injEq] at hc
    exact hc ▸ h2
  · intro sh hc
    exact h.2 sh hc

theorem inv_init : StateInv initState := by
  constructor <;> intro sh hc <;> simp [initState] at hc

theorem inv_startShift (now : Nat) (s : State) (h : StateInv s) :
    StateInv (startShift now s) := by
  cases hc : s.currentShift with
  | none =>
    simp only [startShift, hc]
    exact inv_set_current s (freshShift now) h (invShift_fresh now)
  | some sh0 =>
    simp only [startShift, hc]
    by_cases he : sh0.endTime = none
    · rw [if_pos he]
      exact h
    · rw [if_neg he]
      exact inv_set_current s (freshShift now) h (invShift_fresh now)

theorem inv_endShift (now : Nat) (s : State) (h : StateInv s) :
    StateInv (endShift now s) := by
  cases hc : s.currentShift with
  | none =>
    simp only [endShift, hc]
    exact h
  | some sh =>
    simp only [endShift, hc]
    by_cases he : sh.endTime.isSome
    · rw [if_pos he]
      exact h
    · rw [if_neg he]
      constructor
      · intro sh2 hc2
        simp at hc2
      · intro sh2 hc2
        simp only [Option.some.injEq] at hc2
        have hsh := h.1 sh hc
        exact hc2 ▸ ⟨hsh.2.2.2.1, hsh.2.2.2.2.1, hsh.2.2.2.2.2⟩

/-- Characterization of the non-throwing runs of `startPatrol`: either the
state is returned untouched, or every guard passed and exactly the target
patrol's `startTime` was stamped. -/
theorem startPatrolE_ok (now : Nat) (i : Int) (s s2 : State)
    (h : startPatrolE now i s = Except.ok s2) :
    s2 = s ∨
    ∃ sh tp, s.currentShift = some sh ∧ sh.endTime = none ∧
      sh.patrols.find? activeB = none ∧
      jsGet sh.patrols i = some tp ∧
      tp.startTime = none ∧ tp.endTime = none ∧
      (0 < i → ∃ prev, jsGet sh.patrols (i - 1) = some prev ∧
        prev.endTime.isSome = true) ∧
      s2 = startPatrolResult now i s sh tp := by
  cases hc : s.currentShift with
  | none =>
    simp only [startPatrolE, hc] at h
    cases h
    exact Or.inl rfl
  | some sh =>
    simp only [startPatrolE, hc] at h
    by_cases he : sh.endTime.isSome
    · rw [if_pos he] at h
      cases h
      exact Or.inl rfl
    · rw [if_neg he] at h
      by_cases hf : (sh.patrols.find? activeB).isSome
      · rw [if_pos hf] at h
        cases h
        exact Or.inl rfl
      · rw [if_neg hf] at h
        have he2 : sh.endTime = none := Option.not_isSome_iff_eq_none.mp he
        have hf2 : sh.patrols.find? activeB = none :=
          Option.not_isSome_iff_eq_none.mp hf
        by_cases hi : 0 < i
        · rw [if_pos hi] at h
          cases hprev : jsGet sh.patrols (i - 1) with
          | none =>
            simp [hprev] at h
          | some prev =>
            simp only [hprev] at h
            by_cases hpe : prev.endTime.isNone
            · rw [if_pos hpe] at h
              cases h
              exact Or.inl rfl
            · rw [if_neg hpe] at h
              have hpe2 : prev.endTime.isSome = true := by
                cases hx : prev.endTime with
                | none => rw [hx] at hpe; simp at hpe
                | some v => simp
              cases htp : jsGet sh.patrols i with
              | none =>
                rw [htp] at h
                simp [startPatrolGo] at h
              | some tp =>
                rw [htp] at h
                by_cases hpend : tp.startTime.isNone && tp.endTime.isNone
                · simp only [startPatrolGo, if_pos hpend] at h
                  cases h
                  have hst : tp.startTime = none := by
                    have := (Bool.and_eq_true _ _).mp hpend
                    exact Option.isNone_iff_eq_none.mp this.1
                  have het : tp.endTime = none := by
                    have := (Bool.and_eq_true _ _).mp hpend
                    exact Option.isNone_iff_eq_none.mp this.2
                  exact Or.inr ⟨sh, tp, rfl, he2, hf2, htp, hst, het,
                    fun _ => ⟨prev, hprev, hpe2⟩, rfl⟩
                · simp only [startPatrolGo, if_neg hpend] at h
                  cases h
                  exact Or.inl rfl
        · rw [if_neg hi] at h
          cases htp : jsGet sh.patrols i with
          | none =>
            rw [htp] at h
            simp [startPatrolGo] at h
          | some tp =>
            rw [htp] at h
            by_cases hpend : tp.startTime.isNone && tp.endTime.isNone
            · simp only [startPatrolGo, if_pos hpend] at h
              cases h
              have hst : tp.startTime = none := by
                have := (Bool.and_eq_true _ _).mp hpend
                exact Option.isNone_iff_eq_none.mp this.1
              have het : tp.endTime = none := by
                have := (Bool.and_eq_true _ _).mp hpend
                exact Option.isNone_iff_eq_none.mp this.2
              exact Or.inr ⟨sh, tp, rfl, he2, hf2, htp, hst, het,
                fun hcon => absurd hcon hi, rfl⟩
            · simp only [startPatrolGo, if_neg hpend] at h
              cases h
              exact Or.inl rfl

theorem countP_zero_of_find_none (l : List Patrol)
    (hf : l.find? activeB = none) : List.countP activeB l = 0 :=
  List.countP_eq_zero.mpr (List.find?_eq_none.mp hf)

theorem inv_startPatrolE (now : Nat) (i : Int) (s s2 : State)
    (h : StateInv s) (hok : startPatrolE now i s = Except.ok s2) :
    StateInv s2 := by
  rcases startPatrolE_ok now i s s2 hok with rfl | hsucc
  · exact h
  · obtain ⟨sh, tp, hc, he2, hf2, htp, hst, het, hprev, rfl⟩ := hsucc
    apply inv_set_current s _ h
    have hsh := h.1 sh hc
    refine ⟨he2, ?_, ?_, hsh.2.2.2.1, hsh.2.2.2.2.1, hsh.2.2.2.2.2⟩
    · show List.countP activeB
        (sh.patrols.set i.toNat ({ tp with startTime := some now })) ≤ 1
      have hz : List.countP activeB sh.patrols = 0 :=
        countP_zero_of_find_none sh.patrols hf2
      have hle := countP_set_le activeB sh.patrols i.toNat
        { tp with startTime := some now }
      rw [hz] at hle
      have hif : (if activeB { tp with startTime := some now } then 1 else 0) ≤ 1 := by
        split <;> omega
      omega
    · show (sh.patrols.set i.toNat _).length = 5
      rw [List.length_set]
      exact hsh.2.2.1

theorem inv_endPatrol (now : Nat) (i : Int) (s : State) (h : StateInv s) :
    StateInv (endPatrol now i s) := by
  cases hc : s.currentShift with
  | none =>
    simp only [endPatrol, hc]
    exact h
  | some sh =>
    by_cases he : sh.endTime.isSome
    · simp only [endPatrol, hc, if_pos he]
      exact h
    · cases hp : jsGet sh.patrols i with
      | none =>
        simp only [endPatrol, hc, if_neg he, hp]
        exact h
      | some p =>
        by_cases hact : p.startTime.isSome && p.endTime.isNone
        · simp only [endPatrol, hc, if_neg he, hp, if_pos hact]
          apply inv_set_current s _ h
          have hsh := h.1 sh hc
          refine ⟨Option.not_isSome_iff_eq_none.mp he, ?_, ?_,
            hsh.2.2.2.1, hsh.2.2.2.2.1, hsh.2.2.2.2.2⟩
          · show List.countP activeB
              (sh.patrols.set i.toNat ({ p with endTime := some now })) ≤ 1
            have hle := countP_set_le activeB sh.patrols i.toNat
              { p with endTime := some now }
            have hz : activeB { p with endTime := some now } = false := by
              simp [activeB]
            rw [hz] at hle
            simp at hle
            exact hle.trans hsh.2.1
          · show (sh.patrols.set i.toNat _).length = 5
            rw [List.length_set]
            exact hsh.2.2.1
        · simp only [endPatrol, hc, if_neg he, hp, if_neg hact]
          exact h

theorem inv_setEngagements (v : Int) (s : State) (h : StateInv s) :
    StateInv (setCurrentEngagements v s) := by
  cases hc : s.currentShift with
  | none =>
    simp only [setCurrentEngagements, hc]
    exact h
  | some sh =>
    simp only [setCurrentEngagements, hc]
    by_cases he : sh.endTime.isSome
    · rw [if_pos he]
      exact h
    · rw [if_neg he]
      apply inv_set_current s _ h
      have hsh := h.1 sh hc
      exact ⟨hsh.1, hsh.2.1, hsh.2.2.1, le_max_left 0 v,
        hsh.2.2.2.2.1, hsh.2.2.2.2.2⟩

theorem inv_setStreetDrinkers (v : Int) (s : State) (h : StateInv s) :
    StateInv (setCurrentStreetDrinkers v s) := by
  cases hc : s.currentShift with
  | none =>
    simp only [setCurrentStreetDrinkers, hc]
    exact h
  | some sh =>
    simp only [setCurrentStreetDrinkers, hc]
    by_cases he : sh.endTime.isSome
    · rw [if_pos he]
      exact h
    · rw [if_neg he]
      apply inv_set_current s _ h
      have hsh := h.1 sh hc
      exact ⟨hsh.1, hsh.2.1, hsh.2.2.1, hsh.2.2.2.1,
        le_max_left 0 v, hsh.2.2.2.2.2⟩

theorem inv_setAsbIncidents (v : Int) (s : State) (h : StateInv s) :
    StateInv (setCurrentAsbIncidents v s) := by
  cases hc : s.currentShift with
  | none =>
    simp only [setCurrentAsbIncidents, hc]
    exact h
  | some sh =>
    simp only [setCurrentAsbIncidents, hc]
    by_cases he : sh.endTime.isSome
    · rw [if_pos he]
      exact h
    · rw [if_neg he]
      apply inv_set_current s _ h
      have hsh := h.1 sh hc
      exact ⟨hsh.1, hsh.2.1, hsh.2.2.1, hsh.2.2.2.1,
        hsh.2.2.2.2.1, le_max_left 0 v⟩

theorem inv_notesChange (s : State) (sh sh2 : Shift) (h : StateInv s)
    (hc : s.currentShift = some sh)
    (he : sh2.endTime = sh.endTime) (hp : sh2.patrols = sh.patrols)
    (h1 : sh2.engagements = sh.engagements)
    (h2 : sh2.streetDrinkers = sh.streetDrinkers)
    (h3 : sh2.asbIncidents = sh.asbIncidents) :
    StateInv { s with currentShift := some sh2 } := by
  apply inv_set_current s _ h
  have hsh := h.1 sh hc
  rw [InvShift, he, hp, h1, h2, h3]
  exact hsh

theorem inv_toggleNotesLock (s : State) (h : StateInv s) :
    StateInv (toggleNotesLock s) := by
  cases hc : s.currentShift with
  | none =>
    simp only [toggleNotesLock, hc]
    exact h
  | some sh =>
    simp only [toggleNotesLock, hc]
    exact inv_notesChange s sh _ h hc rfl rfl rfl rfl rfl

theorem inv_addNote (now noteId : Nat) (text : String) (s : State)
    (h : StateInv s) : StateInv (addNote now noteId text s) := by
  cases hc : s.currentShift with
  | none =>
    simp only [addNote, hc]
    exact h
  | some sh =>
    simp only [addNote, hc]
    by_cases ht : text.trim.isEmpty
    · rw [if_pos ht]
      exact h
    · rw [if_neg ht]
      exact inv_notesChange s sh _ h hc rfl rfl rfl rfl rfl

theorem inv_updateNoteText (noteId : Nat) (text : String) (s : State)
    (h : StateInv s) : StateInv (updateNoteText noteId text s) := by
  cases hc : s.currentShift with
  | none =>
    simp only [updateNoteText, hc]
    exact h
  | some sh =>
    simp only [updateNoteText, hc]
    cases hf : sh.notes.find? (fun n => n.id = noteId) with
    | none => exact h
    | some n => exact inv_notesChange s sh _ h hc rfl rfl rfl rfl rfl

theorem inv_deleteNote (noteId : Nat) (s : State) (h : StateInv s) :
    StateInv (deleteNote noteId s) := by
  cases hc : s.currentShift with
  | none =>
    simp only [deleteNote, hc]
    exact h
  | some sh =>
    simp only [deleteNote, hc]
    cases hf : sh.notes.find? (fun n => n.id = noteId) with
    | none => exact h
    | some n => exact inv_notesChange s sh _ h hc rfl rfl rfl rfl rfl

theorem inv_step (op : Op) (s : State) (h : StateInv s) :
    StateInv (step op s) := by
  cases op with
  | startShift now => exact inv_startShift now s h
  | endShift now => exact inv_endShift now s h
  | startPatrol now i =>
    show StateInv (match startPatrolE now i s with
      | Except.ok s2 => s2
      | Except.error _ => s)
    cases hE : startPatrolE now i s with
    | ok s2 => exact inv_startPatrolE now i s s2 h hE
    | error e => exact h
  | endPatrol now i => exact inv_endPatrol now i s h
  | incrementEngagements => exact inv_setEngagements _ s h
  | decrementEngagements =>
    show StateInv (decrementEngagements s)
    by_cases hz : getCurrentEngagements s ≤ 0
    · simp only [decrementEngagements, if_pos hz]
      exact h
    · simp only [decrementEngagements, if_neg hz]
      exact inv_setEngagements _ s h
  | incrementStreetDrinkers => exact inv_setStreetDrinkers _ s h
  | decrementStreetDrinkers =>
    show StateInv (decrementStreetDrinkers s)
    by_cases hz : getCurrentStreetDrinkers s ≤ 0
    · simp only [decrementStreetDrinkers, if_pos hz]
      exact h
    · simp only [decrementStreetDrinkers, if_neg hz]
      exact inv_setStreetDrinkers _ s h
  | incrementAsbIncidents => exact inv_setAsbIncidents _ s h
  | decrementAsbIncidents =>
    show StateInv (decrementAsbIncidents s)
    by_cases hz : getCurrentAsbIncidents s ≤ 0
    · simp only [decrementAsbIncidents, if_pos hz]
      exact h
    · simp only [decrementAsbIncidents, if_neg hz]
      exact inv_setAsbIncidents _ s h
  | toggleNotesLock => exact inv_toggleNotesLock s h
  | addNote now noteId text => exact inv_addNote now noteId text s h
  | updateNoteText noteId text => exact inv_updateNoteText noteId text s h
  | deleteNote noteId => exact inv_deleteNote noteId s h

theorem reachable_inv {s : State} (h : Reachable s) : StateInv s := by
  induction h with
  | init => exact inv_init
  | next op hr ih => exact inv_step op _ ih

-- ---------- Claim theorems ----------

/-- Claim C1: for every sequence of operations applied from the initial
empty state, at most one of the current shift's five patrols has
`startTime` set and `endTime` absent (is active) at any moment. -/
theorem claim1_at_most_one_active_patrol (s : State) (sh : Shift)
    (hr : Reachable s) (hc : s.currentShift = some sh) :
    List.countP activeB sh.patrols ≤ 1 :=
  ((reachable_inv hr).1 sh hc).2.1

theorem claim1_witness : List.countP activeB shA.patrols ≤ 1 :=
  claim1_at_most_one_active_patrol (run opsA) shA (reachable_run opsA)
    (by decide)

/-- Claim C9: in every reachable state (absent a corrupted persisted
blob), a present current shift has no `endTime`: `endShift` stamps the
end and archives the shift in the same operation. -/
theorem claim9_current_shift_unended (s : State) (sh : Shift)
    (hr : Reachable s) (hc : s.currentShift = some sh) :
    sh.endTime = none :=
  ((reachable_inv hr).1 sh hc).1

theorem claim9_witness : shA.endTime = none :=
  claim9_current_shift_unended (run opsA) shA (reachable_run opsA) (by decide)

/-- Claim C2: from any reachable state holding an un-ended current shift,
`endShift` stamps the shift's `endTime`, stamps the `endTime` of the
(unique) active patrol, clears `currentShift` and replaces
`lastCompletedShift` with the just-ended shift. -/
theorem claim2_endShift_archives (now : Nat) (s : State) (sh : Shift)
    (hr : Reachable s) (hc : s.currentShift = some sh) :
    (endShift now s).currentShift = none ∧
    (endShift now s).lastCompletedShift =
      some { sh with patrols := closeFirstActive now sh.patrols
                     endTime := some now } ∧
    ∀ j p, sh.patrols.get? j = some p → activeB p = true →
      (closeFirstActive now sh.patrols).get? j =
        some { p with endTime := some now } := by
  have hsh := (reachable_inv hr).1 sh hc
  have he : sh.endTime = none := hsh.1
  have hred : endShift now s =
      { currentShift := none
        lastCompletedShift :=
          some { sh with patrols := closeFirstActive now sh.patrols
                         endTime := some now } } := by
    simp [endShift, hc, he]
  refine ⟨by rw [hred], by rw [hred], ?_⟩
  intro j p hg hp
  exact get_closeFirstActive_active now sh.patrols j p hsh.2.1 hg hp

theorem claim2_witness :
    (endShift 20 (run opsA)).currentShift = none ∧
    (endShift 20 (run opsA)).lastCompletedShift =
      some { shA with patrols := closeFirstActive 20 shA.patrols
                      endTime := some 20 } ∧
    (closeFirstActive 20 shA.patrols).get? 0 = some ⟨1, some 11, some 20⟩ := by
  have h := claim2_endShift_archives 20 (run opsA) shA (reachable_run opsA)
    (by decide)
  exact ⟨h.1, h.2.1, h.2.2 0 ⟨1, some 11, none⟩ (by decide) (by decide)⟩

/-- Claim C10: `endShift` changes only the shift's `endTime` and the
`endTime` of the single previously-active patrol (if any); id, date,
start, counters, notes, lock flag and every other patrol are carried into
`lastCompletedShift` unchanged. -/
theorem claim10_endShift_frame (now : Nat) (s : State) (sh : Shift)
    (hc : s.currentShift = some sh) (he : sh.endTime = none)
    (hone : List.countP activeB sh.patrols ≤ 1) :
    ∃ sh2, (endShift now s).lastCompletedShift = some sh2 ∧
      sh2.id = sh.id ∧ sh2.date = sh.date ∧ sh2.startTime = sh.startTime ∧
      sh2.endTime = some now ∧
      sh2.engagements = sh.engagements ∧
      sh2.streetDrinkers = sh.streetDrinkers ∧
      sh2.asbIncidents = sh.asbIncidents ∧
      sh2.notes = sh.notes ∧ sh2.notesLocked = sh.notesLocked ∧
      sh2.patrols.length = sh.patrols.length ∧
      (∀ j p, sh.patrols.get? j = some p → activeB p = false →
        sh2.patrols.get? j = some p) ∧
      (∀ j p, sh.patrols.get? j = some p → activeB p = true →
        sh2.patrols.get? j = some { p with endTime := some now }) := by
  refine ⟨{ sh with patrols := closeFirstActive now sh.patrols
                    endTime := some now },
    ?_, rfl, rfl, rfl, rfl, rfl, rfl, rfl, rfl, rfl, ?_, ?_, ?_⟩
  · simp [endShift, hc, he]
  · exact length_closeFirstActive now sh.patrols
  · intro j p hg hp
    exact get_closeFirstActive_inactive now sh.patrols j p hg hp
  · intro j p hg hp
    exact get_closeFirstActive_active now sh.patrols j p hone hg hp

theorem claim10_witness :
    ∃ sh2, (endShift 20 (run opsA)).lastCompletedShift = some sh2 ∧
      sh2.id = shA.id ∧ sh2.date = shA.date ∧ sh2.startTime = shA.startTime ∧
      sh2.endTime = some 20 ∧
      sh2.engagements = shA.engagements ∧
      sh2.streetDrinkers = shA.streetDrinkers ∧
      sh2.asbIncidents = shA.asbIncidents ∧
      sh2.notes = shA.notes ∧ sh2.notesLocked = shA.notesLocked ∧
      sh2.patrols.length = shA.patrols.length ∧
      (∀ j p, shA.patrols.get? j = some p → activeB p = false →
        sh2.patrols.get? j = some p) ∧
      (∀ j p, shA.patrols.get? j = some p → activeB p = true →
        sh2.patrols.get? j = some { p with endTime := some 20 }) :=
  claim10_endShift_frame 20 (run opsA) shA (by decide) (by decide) (by decide)

/-- Claim C3: in any reachable state, a `startPatrol(i)` call that
actually changes the state has found the target patrol pending and, for
`i > 0`, the previous patrol already carrying an `endTime`: patrols can
only become active in order, with no skipping. -/
theorem claim3_patrol_sequencing (now : Nat) (i : Int) (s s2 : State)
    (hr : Reachable s) (hok : startPatrolE now i s = Except.ok s2)
    (hne : s2 ≠ s) :
    ∃ sh tp, s.currentShift = some sh ∧
      sh.patrols.get? i.toNat = some tp ∧
      tp.startTime = none ∧ tp.endTime = none ∧
      (0 < i → ∃ prev, sh.patrols.get? (i.toNat - 1) = some prev ∧
        prev.endTime.isSome = true) ∧
      s2 = startPatrolResult now i s sh tp := by
  rcases startPatrolE_ok now i s s2 hok with rfl | hsucc
  · exact absurd rfl hne
  · obtain ⟨sh, tp, hc, he2, hf2, htp, hst, het, hprev, h2⟩ := hsucc
    refine ⟨sh, tp, hc, ?_, hst, het, ?_, h2⟩
    · unfold jsGet at htp
      by_cases hi0 : (0 : Int) ≤ i
      · rw [if_pos hi0] at htp
        exact htp
      · rw [if_neg hi0] at htp
        simp at htp
    · intro hi
      obtain ⟨prev, hp, hpe⟩ := hprev hi
      refine ⟨prev, ?_, hpe⟩
      unfold jsGet at hp
      rw [if_pos (by omega)] at hp
      have hconv : (i - 1).toNat = i.toNat - 1 := by omega
      rw [hconv] at hp
      exact hp

theorem claim3_witness :
    ∃ sh tp, (run opsB).currentShift = some sh ∧
      sh.patrols.get? 1 = some tp ∧
      tp.startTime = none ∧ tp.endTime = none ∧
      ((0 : Int) < 1 → ∃ prev, sh.patrols.get? 0 = some prev ∧
        prev.endTime.isSome = true) ∧
      sB2 = startPatrolResult 13 1 (run opsB) sh tp :=
  claim3_patrol_sequencing 13 1 (run opsB) sB2 (reachable_run opsB)
    rfl (by decide)

/-- Claim C4, evaluated at a failing input: `startPatrol(-1)` against a
freshly started shift reaches `!thisPatrol.startTime` with
`thisPatrol = patrols[-1] = undefined` and throws a TypeError instead of
being a silent no-op (`startPatrol(5)` after patrol 5 completes, or any
index ≥ 6 with no active patrol, throws likewise at the unguarded
`patrols[index]` / `patrols[index - 1]` reads; `endPatrol` guards the
same read with `if (patrol && ...)`). -/
theorem claim4_startPatrol_out_of_range_throws :
    startPatrolE 1 (-1) (startShift 0 initState) = Except.error () := rfl

/-- Claim C6: whatever the state, a second consecutive `startShift` is a
no-op, and from a state with no active current shift the first call
installs exactly the fresh shift. -/
theorem claim6_startShift_idempotent (t0 t1 : Nat) (s : State)
    (h : ∀ sh, s.currentShift = some sh → sh.endTime ≠ none) :
    (startShift t0 s).currentShift = some (freshShift t0) ∧
    startShift t1 (startShift t0 s) = startShift t0 s := by
  have h1 : (startShift t0 s).currentShift = some (freshShift t0) := by
    cases hc : s.currentShift with
    | none => simp [startShift, hc]
    | some sh0 =>
      have hne := h sh0 hc
      simp [startShift, hc, hne]
  refine ⟨h1, ?_⟩
  generalize hX : startShift t0 s = X at h1 ⊢
  simp [startShift, h1, freshShift]

theorem claim6_witness :
    (startShift 0 initState).currentShift = some (freshShift 0) ∧
    startShift 1 (startShift 0 initState) = startShift 0 initState :=
  claim6_startShift_idempotent 0 1 initState (fun _sh h => nomatch h)

theorem setCurrentEngagements_ended (v : Int) (s : State)
    (h : shiftEnded s) : setCurrentEngagements v s = s := by
  rcases h with hc | ⟨sh, hc, he⟩
  · simp [setCurrentEngagements, hc]
  · simp [setCurrentEngagements, hc, he]

theorem setCurrentStreetDrinkers_ended (v : Int) (s : State)
    (h : shiftEnded s) : setCurrentStreetDrinkers v s = s := by
  rcases h with hc | ⟨sh, hc, he⟩
  · simp [setCurrentStreetDrinkers, hc]
  · simp [setCurrentStreetDrinkers, hc, he]

theorem setCurrentAsbIncidents_ended (v : Int) (s : State)
    (h : shiftEnded s) : setCurrentAsbIncidents v s = s := by
  rcases h with hc | ⟨sh, hc, he⟩
  · simp [setCurrentAsbIncidents, hc]
  · simp [setCurrentAsbIncidents, hc, he]

/-- Claim C5: stored counters of a reachable state are never negative and
the getters only ever return non-negative values; a decrement at 0 leaves
the state unchanged; increments and decrements are no-ops once the shift
has ended. -/
theorem claim5_counters_safe :
    (∀ s sh, Reachable s → s.currentShift = some sh →
      0 ≤ sh.engagements ∧ 0 ≤ sh.streetDrinkers ∧ 0 ≤ sh.asbIncidents) ∧
    (∀ s, 0 ≤ getCurrentEngagements s ∧ 0 ≤ getCurrentStreetDrinkers s ∧
      0 ≤ getCurrentAsbIncidents s) ∧
    (∀ s, getCurrentEngagements s = 0 → decrementEngagements s = s) ∧
    (∀ s, getCurrentStreetDrinkers s = 0 → decrementStreetDrinkers s = s) ∧
    (∀ s, getCurrentAsbIncidents s = 0 → decrementAsbIncidents s = s) ∧
    (∀ s, shiftEnded s →
      incrementEngagements s = s ∧ decrementEngagements s = s ∧
      incrementStreetDrinkers s = s ∧ decrementStreetDrinkers s = s ∧
      incrementAsbIncidents s = s ∧ decrementAsbIncidents s = s) := by
  refine ⟨?_, ?_, ?_, ?_, ?_, ?_⟩
  · intro s sh hr hc
    have hsh := (reachable_inv hr).1 sh hc
    exact ⟨hsh.2.2.2.1, hsh.2.2.2.2.1, hsh.2.2.2.2.2⟩
  · intro s
    refine ⟨?_, ?_, ?_⟩ <;>
      cases hc : s.currentShift <;>
        simp [getCurrentEngagements, getCurrentStreetDrinkers,
          getCurrentAsbIncidents, safeCounter, hc] <;> split <;> omega
  · intro s hz
    simp [decrementEngagements, hz]
  · intro s hz
    simp [decrementStreetDrinkers, hz]
  · intro s hz
    simp [decrementAsbIncidents, hz]
  · intro s hend
    refine ⟨?_, ?_, ?_, ?_, ?_, ?_⟩
    · exact setCurrentEngagements_ended _ s hend
    · show decrementEngagements s = s
      unfold decrementEngagements
      split
      · rfl
      · exact setCurrentEngagements_ended _ s hend
    · exact setCurrentStreetDrinkers_ended _ s hend
    · show decrementStreetDrinkers s = s
      unfold decrementStreetDrinkers
      split
      · rfl
      · exact setCurrentStreetDrinkers_ended _ s hend
    · exact setCurrentAsbIncidents_ended _ s hend
    · show decrementAsbIncidents s = s
      unfold decrementAsbIncidents
      split
      · rfl
      · exact setCurrentAsbIncidents_ended _ s hend

theorem claim5_witness :
    (0 ≤ shA.engagements ∧ 0 ≤ shA.streetDrinkers ∧ 0 ≤ shA.asbIncidents) ∧
    decrementEngagements initState = initState ∧
    incrementEngagements (endShift 20 (run opsA)) = endShift 20 (run opsA) :=
  ⟨claim5_counters_safe.1 (run opsA) shA (reachable_run opsA) (by decide),
   claim5_counters_safe.2.2.1 initState (by decide),
   (claim5_counters_safe.2.2.2.2.2 (endShift 20 (run opsA))
     (Or.inl (by decide))).1⟩

/-- Claim C7: saving the whole state and loading it back reproduces the
same state — every shift id, timestamp, counter, note and patrol field
survives the round trip, whatever was in memory before the load. -/
theorem claim7_save_load_roundtrip (s prior : State) :
    loadState (saveState s) prior = s := by
  cases s with
  | mk cur last => cases cur <;> cases last <;> rfl

/-- Claim C8: the summary's total patrol time is the sum of
`getPatrolDurationMs` over all five patrols, which coincides with the
spec's `durationOf` formula; untouched patrols are omitted from the
itemized listing yet contribute 0, so the listed patrols alone already
account for the whole total. -/
theorem claim8_summary_total (sh : Shift) :
    totalPatrolMs sh =
      (sh.patrols.map (fun p => durationOfSpec p.startTime p.endTime)).sum ∧
    totalPatrolMs sh =
      ((summaryListedPatrols sh).map getPatrolDurationMs).sum ∧
    (∀ p : Patrol, p.startTime = none → p.endTime = none →
      getPatrolDurationMs p = 0) := by
  refine ⟨rfl, ?_, ?_⟩
  · show (sh.patrols.map getPatrolDurationMs).sum =
      ((sh.patrols.filter
        (fun p => !(p.startTime.isNone && p.endTime.isNone))).map
          getPatrolDurationMs).sum
    induction sh.patrols with
    | nil => rfl
    | cons p ps ih =>
      rcases hs : p.startTime with _ | a <;> rcases he : p.endTime with _ | b <;>
        simp [List.filter_cons, getPatrolDurationMs, hs, he, ih]
  · intro p h1 h2
    simp [getPatrolDurationMs, h1, h2]

theorem claim8_witness :
    totalPatrolMs shB = ((summaryListedPatrols shB).map getPatrolDurationMs).sum ∧
    getPatrolDurationMs ⟨3, none, none⟩ = 0 :=
  ⟨(claim8_summary_total shB).2.1,
   (claim8_summary_total shB).2.2 ⟨3, none, none⟩ rfl rfl⟩
